import Mathlib

/-!
A shallow embedding of the whiteboard controller in `src/js/app.js`
(class `Whiteboard`).

Modelling choices, each tied to a place in the source:

* The canvas raster is modelled as a display list: the ordered sequence of
  paint operations applied since the last `clearRect` covering the whole
  canvas.  `ctx.lineTo/stroke` during a drag (app.js `draw`, lines 109-122)
  appends one stroke segment carrying the `strokeStyle` and `lineWidth` in
  effect; `ctx.fillText` (app.js `commitText`, line 166) appends one text
  operation.  Re-stroking already painted segments of the current path,
  which the real `stroke()` call does on every mousemove, repaints the same
  pixels and is dropped as pixel-identity.
* `canvas.toDataURL()` encodes the full raster losslessly (PNG data URL)
  and `redrawFromData` decodes it and blits it over a cleared canvas
  (app.js lines 196-203), so encode/decode round-trips the pixel state;
  both are modelled as the identity on the display list.  The decode
  callback is modelled as completing synchronously before the next event
  is handled (the event-loop interleaving of §5 of the design is outside
  these claims).
* JavaScript `Array.push`/`Array.pop` operate on the end of the array; the
  history stacks are stored top-of-stack-first, so `push` is `::` and
  `pop` takes the head.
* DOM events deliver viewport coordinates `clientX/clientY`; the canvas's
  bounding rectangle offset (`rect.left`, `rect.top`) is carried in the
  state as `rectLeft`/`rectTop` (constant between resizes).
* The `confirm` dialog of `clearCanvas` (line 212) and the text typed into
  the overlay input are user inputs, passed as arguments
  (`confirmed : Bool`, `setTextValue`).
-/

namespace WhiteboardApp

/-- One pixel-affecting operation recorded on the raster. -/
inductive PaintOp where
  /-- A stroke segment from `(x1, y1)` to `(x2, y2)` painted by
  `ctx.lineTo(x, y); ctx.stroke()` with the current `strokeStyle` and
  `lineWidth`. -/
  | segment (x1 y1 x2 y2 : Int) (color : String) (width : Nat)
  /-- Text painted by `ctx.fillText(value, x, y)` with the given font and
  fill color. -/
  | text (value : String) (x y : Int) (font : String) (color : String)
  deriving DecidableEq, Repr

/-- The canvas pixel content: ordered paint operations since the last
full-canvas clear (empty list = blank canvas). -/
abbrev Canvas := List PaintOp

/-- A snapshot as produced by `canvas.toDataURL()`: a lossless encoding of
the full raster, so it is identified with the pixel content it encodes. -/
abbrev Snapshot := Canvas

/-- Encoding `canvas.toDataURL()` (app.js lines 178, 184, 191): lossless encode. -/
def toDataURL (c : Canvas) : Snapshot := c

/-- The live text-input overlay created by `addTextInput`
(app.js lines 131-156): its fixed position, the style it was given, and
its current value. -/
structure TextInput where
  left : Int
  top : Int
  color : String
  font : String
  value : String
  deriving DecidableEq, Repr

/-- The mutable part of the 2D context that app.js touches:
`strokeStyle`, `fillStyle`, `lineWidth`, `font`. -/
structure Ctx where
  strokeStyle : String
  fillStyle : String
  lineWidth : Nat
  font : String
  deriving DecidableEq, Repr

/-- The state of the `Whiteboard` class (app.js lines 1-14) together with
the ambient canvas bounding-rectangle offset and the context's current
path point (`beginPath`/`moveTo`/`lineTo` position). -/
structure Whiteboard where
  rectLeft : Int
  rectTop : Int
  canvas : Canvas
  ctx : Ctx
  isDrawing : Bool
  currentTool : String
  history : List Snapshot
  redoHistory : List Snapshot
  textInput : Option TextInput
  path : Option (Int × Int)
  deriving DecidableEq, Repr

namespace Whiteboard

/-- The constructor state (app.js lines 2-14): blank canvas, pencil tool,
empty stacks, no overlay, default 2D-context style
(`strokeStyle`/`fillStyle` black, `lineWidth` 1, font 10px sans-serif). -/
def init (rectLeft rectTop : Int) : Whiteboard where
  rectLeft := rectLeft
  rectTop := rectTop
  canvas := []
  ctx := { strokeStyle := "#000000", fillStyle := "#000000",
           lineWidth := 1, font := "10px sans-serif" }
  isDrawing := false
  currentTool := "pencil"
  history := []
  redoHistory := []
  textInput := none
  path := none

/-- Tool-button click handler (app.js lines 63-69): `currentTool = id`. -/
def selectTool (w : Whiteboard) (id : String) : Whiteboard :=
  { w with currentTool := id }

/-- Color-picker change handler (app.js lines 72-74):
`ctx.strokeStyle = value`. -/
def setColor (w : Whiteboard) (value : String) : Whiteboard :=
  { w with ctx := { w.ctx with strokeStyle := value } }

/-- Stroke-width change handler (app.js lines 77-79):
`ctx.lineWidth = value`. -/
def setStrokeWidth (w : Whiteboard) (value : Nat) : Whiteboard :=
  { w with ctx := { w.ctx with lineWidth := value } }

/-- Method `saveState` (app.js lines 177-180): push `canvas.toDataURL()` onto
`history` and reset `redoHistory` to `[]`. -/
def saveState (w : Whiteboard) : Whiteboard :=
  { w with history := toDataURL w.canvas :: w.history, redoHistory := [] }

/-- Method `redrawFromData` (app.js lines 196-203): clear the canvas and draw the
decoded snapshot at the origin, i.e. replace the pixel content by the
snapshot's (decode completion modelled as synchronous). -/
def redrawFromData (w : Whiteboard) (dataUrl : Snapshot) : Whiteboard :=
  { w with canvas := dataUrl }

/-- Method `undo` (app.js lines 182-187): if `history` is non-empty, push the
current canvas snapshot onto `redoHistory` and restore the popped top of
`history`. -/
def undo (w : Whiteboard) : Whiteboard :=
  match w.history with
  | [] => w
  | top :: rest =>
      redrawFromData
        { w with redoHistory := toDataURL w.canvas :: w.redoHistory,
                 history := rest }
        top

/-- Method `redo` (app.js lines 189-194): if `redoHistory` is non-empty, push the
current canvas snapshot onto `history` and restore the popped top of
`redoHistory`. -/
def redo (w : Whiteboard) : Whiteboard :=
  match w.redoHistory with
  | [] => w
  | top :: rest =>
      redrawFromData
        { w with history := toDataURL w.canvas :: w.history,
                 redoHistory := rest }
        top

/-- Method `commitText` (app.js lines 158-175): if an overlay exists and its value
is non-empty, set the context font and fill color from the overlay's style,
fill the text at the overlay's position translated into canvas coordinates
(`parseInt(style.left) - rect.left`, `parseInt(style.top) - rect.top`), and
`saveState`; in every case a still-present overlay is removed. -/
def commitText (w : Whiteboard) : Whiteboard :=
  let w1 :=
    match w.textInput with
    | some ti =>
        if ti.value = "" then w
        else
          let x := ti.left - w.rectLeft
          let y := ti.top - w.rectTop
          saveState
            { w with
              ctx := { w.ctx with font := ti.font, fillStyle := ti.color },
              canvas := w.canvas ++ [PaintOp.text ti.value x y ti.font ti.color] }
    | none => w
  { w1 with textInput := none }

/-- Method `addTextInput` (app.js lines 131-156): commit any already-open overlay
first, then create a fresh empty input fixed at `(x, y)`, colored with the
current `strokeStyle` and sized `lineWidth * 5` px Arial. -/
def addTextInput (w : Whiteboard) (x y : Int) : Whiteboard :=
  let w := if w.textInput.isSome then commitText w else w
  { w with
    textInput := some
      { left := x, top := y,
        color := w.ctx.strokeStyle,
        font := toString (w.ctx.lineWidth * 5) ++ "px Arial",
        value := "" } }

/-- The user typing into the live overlay input: the DOM keeps the input's
`value` up to date; no controller code runs.  (Environment behavior, not a
method of app.js.) -/
def setTextValue (w : Whiteboard) (v : String) : Whiteboard :=
  { w with textInput := w.textInput.map fun ti => { ti with value := v } }

/-- Method `startDrawing` (app.js lines 94-107): set `isDrawing = true`, translate
the event to canvas coordinates; with the text tool open an overlay there
and return, otherwise `beginPath(); moveTo(x, y)` (a fresh current path at
`(x, y)`). -/
def startDrawing (w : Whiteboard) (clientX clientY : Int) : Whiteboard :=
  let w := { w with isDrawing := true }
  let x := clientX - w.rectLeft
  let y := clientY - w.rectTop
  if w.currentTool = "text" then
    addTextInput w x y
  else
    { w with path := some (x, y) }

/-- Method `draw` (app.js lines 109-122): return unless `isDrawing`; with the
eraser tool overwrite `ctx.strokeStyle` with the page background color
`#f0f0f0`; then `lineTo(x, y); stroke()`: paint the segment from the
current path point with the current stroke style (a `lineTo` with no
current subpath only establishes the point, painting nothing). -/
def draw (w : Whiteboard) (clientX clientY : Int) : Whiteboard :=
  if w.isDrawing = false then w
  else
    let x := clientX - w.rectLeft
    let y := clientY - w.rectTop
    let w :=
      if w.currentTool = "eraser" then
        { w with ctx := { w.ctx with strokeStyle := "#f0f0f0" } }
      else w
    match w.path with
    | some (px, py) =>
        { w with
          canvas := w.canvas ++
            [PaintOp.segment px py x y w.ctx.strokeStyle w.ctx.lineWidth],
          path := some (x, y) }
    | none => { w with path := some (x, y) }

/-- Method `stopDrawing` (app.js lines 124-129): if a drag is in progress, end it
and `saveState`. -/
def stopDrawing (w : Whiteboard) : Whiteboard :=
  if w.isDrawing then saveState { w with isDrawing := false } else w

/-- Method `redrawFromHistory` (app.js lines 205-209): restore the top of
`history` if any (used after a resize). -/
def redrawFromHistory (w : Whiteboard) : Whiteboard :=
  match w.history with
  | [] => w
  | top :: _ => redrawFromData w top

/-- Method `clearCanvas` (app.js lines 211-216): `confirm(...)`, and on
confirmation `clearRect` over the whole canvas followed by `saveState`;
on decline nothing happens. -/
def clearCanvas (w : Whiteboard) (confirmed : Bool) : Whiteboard :=
  if confirmed then saveState { w with canvas := [] } else w

/-- One completed stroke gesture: mousedown at `s`, a mousemove per point
of `pts`, then mouseup (`startDrawing`, `draw`*, `stopDrawing`). -/
def doStroke (w : Whiteboard) (s : Int × Int) (pts : List (Int × Int)) :
    Whiteboard :=
  stopDrawing (pts.foldl (fun w p => draw w p.1 p.2) (startDrawing w s.1 s.2))

end Whiteboard

/-- The user-level description of one stroke gesture: the tool button
clicked before the gesture, the mousedown position, and the mousemove
positions. -/
structure StrokeInput where
  tool : String
  start : Int × Int
  pts : List (Int × Int)
  deriving DecidableEq, Repr

/-- A sequence of completed stroke gestures, each preceded by its tool
selection, with no other events interleaved. -/
def runStrokes (w : Whiteboard) (ss : List StrokeInput) : Whiteboard :=
  ss.foldl (fun w s => Whiteboard.doStroke (w.selectTool s.tool) s.start s.pts) w

/-- The color a paint operation deposits on the raster. -/
def PaintOp.paintColor : PaintOp → String
  | .segment _ _ _ _ c _ => c
  | .text _ _ _ _ c => c

/-- Scenario state: one completed pencil stroke from the initial state. -/
def strokeOnce : Whiteboard := (Whiteboard.init 0 0).doStroke (0, 0) [(1, 1)]

/-- Scenario state: two completed pencil strokes from the initial state. -/
def strokeTwice : Whiteboard := strokeOnce.doStroke (2, 2) [(3, 3)]

/-- Scenario state: two strokes then one undo, so both stacks are
non-empty. -/
def midState : Whiteboard := strokeTwice.undo

/-- Scenario state: the text tool was clicked, the mouse pressed at
`(3, 4)` (opening an overlay), and the user typed `Hi`; the mouse button is
still down. -/
def busyState : Whiteboard :=
  (((Whiteboard.init 0 0).selectTool "text").startDrawing 3 4).setTextValue "Hi"

end WhiteboardApp

namespace WhiteboardApp

namespace Whiteboard

/-! Helper lemmas about single event handlers. -/

/-- A mousemove never touches the stacks, the tool, the drawing flag, the
overlay, the rectangle offset, or the line width. -/
theorem draw_effects (w : Whiteboard) (cx cy : Int) :
    (draw w cx cy).history = w.history ∧
    (draw w cx cy).redoHistory = w.redoHistory ∧
    (draw w cx cy).currentTool = w.currentTool ∧
    (draw w cx cy).isDrawing = w.isDrawing ∧
    (draw w cx cy).rectLeft = w.rectLeft ∧
    (draw w cx cy).rectTop = w.rectTop ∧
    (draw w cx cy).textInput = w.textInput ∧
    (draw w cx cy).ctx.lineWidth = w.ctx.lineWidth := by
  cases hd : w.isDrawing with
  | false => simp [draw, hd]
  | true =>
    by_cases ht : w.currentTool = "eraser" <;>
      simp [draw, hd, ht] <;> cases hp : w.path <;> simp [hp]

/-- Once the stroke color has been overwritten with the background color,
a mousemove keeps it there (the eraser branch rewrites the same value and
every other branch leaves the style untouched). -/
theorem draw_strokeStyle_eraser (w : Whiteboard) (cx cy : Int)
    (h : w.ctx.strokeStyle = "#f0f0f0") :
    (draw w cx cy).ctx.strokeStyle = "#f0f0f0" := by
  cases hd : w.isDrawing with
  | false => simpa [draw, hd] using h
  | true =>
    by_cases ht : w.currentTool = "eraser" <;>
      simp [draw, hd, ht] <;> cases hp : w.path <;> simp [hp, h]

/-- A mousemove while drawing with the eraser overwrites the stroke color
with the background color. -/
theorem draw_strokeStyle_eraser_set (w : Whiteboard) (cx cy : Int)
    (hd : w.isDrawing = true) (ht : w.currentTool = "eraser") :
    (draw w cx cy).ctx.strokeStyle = "#f0f0f0" := by
  simp [draw, hd, ht]
  cases hp : w.path <;> simp [hp]

/-- A mousemove with a non-eraser tool leaves the whole context
unchanged. -/
theorem draw_ctx_nonEraser (w : Whiteboard) (cx cy : Int)
    (ht : ¬ w.currentTool = "eraser") :
    (draw w cx cy).ctx = w.ctx := by
  cases hd : w.isDrawing with
  | false => simp [draw, hd]
  | true => simp [draw, hd, ht]; cases hp : w.path <;> simp [hp]

/-- A whole drag (fold of mousemoves) never touches the stacks, the tool,
or the drawing flag. -/
theorem foldl_draw_effects (pts : List (Int × Int)) (w : Whiteboard) :
    (pts.foldl (fun w p => draw w p.1 p.2) w).history = w.history ∧
    (pts.foldl (fun w p => draw w p.1 p.2) w).redoHistory = w.redoHistory ∧
    (pts.foldl (fun w p => draw w p.1 p.2) w).currentTool = w.currentTool ∧
    (pts.foldl (fun w p => draw w p.1 p.2) w).isDrawing = w.isDrawing := by
  induction pts generalizing w with
  | nil => exact ⟨rfl, rfl, rfl, rfl⟩
  | cons p ps ih =>
    have hd := draw_effects w p.1 p.2
    have hi := ih (draw w p.1 p.2)
    simp only [List.foldl_cons]
    exact ⟨hi.1.trans hd.1, hi.2.1.trans hd.2.1, hi.2.2.1.trans hd.2.2.1,
      hi.2.2.2.trans hd.2.2.2.1⟩

/-- A whole drag keeps the stroke color at the background color once it is
there. -/
theorem foldl_draw_strokeStyle (pts : List (Int × Int)) (w : Whiteboard)
    (h : w.ctx.strokeStyle = "#f0f0f0") :
    (pts.foldl (fun w p => draw w p.1 p.2) w).ctx.strokeStyle = "#f0f0f0" := by
  induction pts generalizing w with
  | nil => exact h
  | cons p ps ih =>
    simp only [List.foldl_cons]
    exact ih (draw w p.1 p.2) (draw_strokeStyle_eraser w p.1 p.2 h)

/-- With any tool but the text tool, a mousedown only raises the drawing
flag and starts a fresh path at the canvas-relative position. -/
theorem startDrawing_nonText (w : Whiteboard) (cx cy : Int)
    (h : ¬ w.currentTool = "text") :
    startDrawing w cx cy =
      { w with isDrawing := true,
               path := some (cx - w.rectLeft, cy - w.rectTop) } := by
  simp [startDrawing, h]

/-- A mouseup never touches the context. -/
theorem stopDrawing_ctx (w : Whiteboard) : (stopDrawing w).ctx = w.ctx := by
  by_cases hd : w.isDrawing <;> simp [stopDrawing, hd, saveState]

/-- A completed non-text stroke gesture pushes exactly one snapshot onto
the history, empties the redo stack, and keeps the selected tool. -/
theorem doStroke_spec (w : Whiteboard) (s : Int × Int) (pts : List (Int × Int))
    (h : ¬ w.currentTool = "text") :
    (doStroke w s pts).history.length = w.history.length + 1 ∧
    (doStroke w s pts).redoHistory = [] ∧
    (doStroke w s pts).currentTool = w.currentTool := by
  unfold doStroke
  rw [startDrawing_nonText w s.1 s.2 h]
  have hf := foldl_draw_effects pts
    { w with isDrawing := true, path := some (s.1 - w.rectLeft, s.2 - w.rectTop) }
  set w1 := pts.foldl (fun w p => draw w p.1 p.2)
    { w with isDrawing := true, path := some (s.1 - w.rectLeft, s.2 - w.rectTop) }
  have hdrawing : w1.isDrawing = true := hf.2.2.2
  simp [stopDrawing, hdrawing, saveState, hf.1, hf.2.2.1]

/-- A redo with an empty redo stack changes nothing at all. -/
theorem redo_of_redoHistory_eq_nil (w : Whiteboard) (h : w.redoHistory = []) :
    redo w = w := by
  simp [redo, h]

/-- Committing the overlay never changes the stroke color, the line width,
the current path, the drawing flag, the tool, or the rectangle offset. -/
theorem commitText_effects (w : Whiteboard) :
    (commitText w).ctx.strokeStyle = w.ctx.strokeStyle ∧
    (commitText w).ctx.lineWidth = w.ctx.lineWidth ∧
    (commitText w).path = w.path ∧
    (commitText w).isDrawing = w.isDrawing ∧
    (commitText w).currentTool = w.currentTool ∧
    (commitText w).rectLeft = w.rectLeft ∧
    (commitText w).rectTop = w.rectTop := by
  cases ht : w.textInput with
  | none => simp [commitText, ht]
  | some ti =>
    by_cases hv : ti.value = "" <;> simp [commitText, ht, hv, saveState]

/-- A completed non-text stroke pushes the snapshot of its own final
canvas: the head of the resulting History is the resulting canvas. -/
theorem doStroke_history_eq (w : Whiteboard) (s : Int × Int)
    (pts : List (Int × Int)) (h : ¬ w.currentTool = "text") :
    (doStroke w s pts).history =
      toDataURL (doStroke w s pts).canvas :: w.history ∧
    (doStroke w s pts).redoHistory = [] := by
  unfold doStroke
  rw [startDrawing_nonText w s.1 s.2 h]
  have hf := foldl_draw_effects pts
    { w with isDrawing := true, path := some (s.1 - w.rectLeft, s.2 - w.rectTop) }
  set w1 := pts.foldl (fun w p => draw w p.1 p.2)
    { w with isDrawing := true, path := some (s.1 - w.rectLeft, s.2 - w.rectTop) }
  have hdrawing : w1.isDrawing = true := hf.2.2.2
  simp [stopDrawing, hdrawing, saveState, hf.1, toDataURL]

end Whiteboard

/-- Running stroke gestures one after another adds one History entry per
gesture and keeps the redo stack empty, provided it starts empty and no
gesture uses the text tool. -/
theorem runStrokes_spec (ss : List StrokeInput) (w : Whiteboard)
    (h : ∀ s ∈ ss, ¬ s.tool = "text") (hr : w.redoHistory = []) :
    (runStrokes w ss).history.length = w.history.length + ss.length ∧
    (runStrokes w ss).redoHistory = [] := by
  induction ss generalizing w with
  | nil => simpa [runStrokes] using hr
  | cons s rest ih =>
    have hs : ¬ (w.selectTool s.tool).currentTool = "text" := by
      simpa [Whiteboard.selectTool] using h s (List.mem_cons_self s rest)
    have hd := Whiteboard.doStroke_spec (w.selectTool s.tool) s.start s.pts hs
    have hi := ih ((w.selectTool s.tool).doStroke s.start s.pts)
      (fun t htm => h t (List.mem_cons_of_mem s htm)) hd.2.1
    simp only [runStrokes, List.foldl_cons] at hi ⊢
    refine ⟨?_, hi.2⟩
    rw [hi.1, hd.1]
    simp [Whiteboard.selectTool]
    omega

end WhiteboardApp

namespace WhiteboardApp

/-- C1: committing a sequence of `N` completed strokes from the initial
state, with no undo or redo interleaved, leaves History with exactly `N`
entries and RedoHistory empty. -/
theorem claim1_strokes_fill_history (rectLeft rectTop : Int)
    (ss : List StrokeInput) (h : ∀ s ∈ ss, ¬ s.tool = "text") :
    (runStrokes (Whiteboard.init rectLeft rectTop) ss).history.length =
      ss.length ∧
    (runStrokes (Whiteboard.init rectLeft rectTop) ss).redoHistory = [] := by
  have hs := runStrokes_spec ss (Whiteboard.init rectLeft rectTop) h rfl
  simpa [Whiteboard.init] using hs

/-- Witness for C1: a pencil stroke then an eraser stroke from the initial
state give History length 2 and an empty RedoHistory. -/
theorem claim1_witness :
    (runStrokes (Whiteboard.init 0 0)
      [{ tool := "pencil", start := (0, 0), pts := [(1, 1)] },
       { tool := "eraser", start := (5, 5), pts := [(6, 6)] }]).history.length
      = 2 ∧
    (runStrokes (Whiteboard.init 0 0)
      [{ tool := "pencil", start := (0, 0), pts := [(1, 1)] },
       { tool := "eraser", start := (5, 5), pts := [(6, 6)] }]).redoHistory
      = [] :=
  claim1_strokes_fill_history 0 0
    [{ tool := "pencil", start := (0, 0), pts := [(1, 1)] },
     { tool := "eraser", start := (5, 5), pts := [(6, 6)] }] (by decide)

/-- C2: when History is non-empty, undo followed immediately by redo, with
no intervening mutation, restores the canvas to the exact pixel state it
had before the undo. -/
theorem claim2_undo_redo_roundtrip (w : Whiteboard) (h : w.history ≠ []) :
    w.undo.redo.canvas = w.canvas := by
  match hh : w.history with
  | [] => exact absurd hh h
  | top :: rest =>
    simp [Whiteboard.undo, Whiteboard.redo, hh, Whiteboard.redrawFromData,
      toDataURL]

/-- Witness for C2 at the one-stroke state. -/
theorem claim2_witness : strokeOnce.undo.redo.canvas = strokeOnce.canvas :=
  claim2_undo_redo_roundtrip strokeOnce (by decide)

end WhiteboardApp

namespace WhiteboardApp

/-- C3: in every state, each kind of committed mutation leaves RedoHistory
empty, so an immediately following redo is a no-op: a stroke completion
(mouseup, whenever a drag is in progress), a text commit (whenever the open
overlay has non-empty content), and a confirmed clear (unconditionally) —
each conjunct under its own applicability condition only. -/
theorem claim3_mutations_clear_redo (w : Whiteboard) :
    (w.isDrawing = true →
      w.stopDrawing.redoHistory = [] ∧ w.stopDrawing.redo = w.stopDrawing) ∧
    (∀ ti : TextInput, w.textInput = some ti → ¬ ti.value = "" →
      w.commitText.redoHistory = [] ∧ w.commitText.redo = w.commitText) ∧
    ((w.clearCanvas true).redoHistory = [] ∧
      (w.clearCanvas true).redo = w.clearCanvas true) := by
  refine ⟨fun hd => ?_, fun ti ht hv => ?_, ?_⟩
  · have h1 : w.stopDrawing.redoHistory = [] := by
      simp [Whiteboard.stopDrawing, hd, Whiteboard.saveState]
    exact ⟨h1, Whiteboard.redo_of_redoHistory_eq_nil _ h1⟩
  · have h2 : w.commitText.redoHistory = [] := by
      simp [Whiteboard.commitText, ht, hv, Whiteboard.saveState]
    exact ⟨h2, Whiteboard.redo_of_redoHistory_eq_nil _ h2⟩
  · have h3 : (w.clearCanvas true).redoHistory = [] := by
      simp [Whiteboard.clearCanvas, Whiteboard.saveState]
    exact ⟨h3, Whiteboard.redo_of_redoHistory_eq_nil _ h3⟩

/-- Witness for C3: all three conjuncts at a state that is mid-drag with
an open overlay containing `Hi`, and the confirmed-clear conjunct also at
the post-undo idle state, where the two stacks are non-empty and neither
drag nor overlay exists. -/
theorem claim3_witness :
    ((busyState.stopDrawing.redoHistory = [] ∧
        busyState.stopDrawing.redo = busyState.stopDrawing) ∧
      (busyState.commitText.redoHistory = [] ∧
        busyState.commitText.redo = busyState.commitText) ∧
      ((busyState.clearCanvas true).redoHistory = [] ∧
        (busyState.clearCanvas true).redo = busyState.clearCanvas true)) ∧
    ((midState.clearCanvas true).redoHistory = [] ∧
      (midState.clearCanvas true).redo = midState.clearCanvas true) :=
  ⟨⟨(claim3_mutations_clear_redo busyState).1 (by decide),
    (claim3_mutations_clear_redo busyState).2.1
      { left := 3, top := 4, color := "#000000", font := "5px Arial",
        value := "Hi" }
      (by decide) (by decide),
    (claim3_mutations_clear_redo busyState).2.2⟩,
   (claim3_mutations_clear_redo midState).2.2⟩

/-- C4 counterexample: after one completed stroke from the initial blank
state, undo does not return the canvas to blank — the only History entry
is the post-stroke snapshot, so the stroke stays visible. -/
theorem claim4_counterexample : ¬ strokeOnce.undo.canvas = ([] : Canvas) := by
  decide

/-- C4 amended: from the initial state, one completed stroke leaves
History with 1 entry; undo restores the post-stroke snapshot, so the
canvas keeps showing the stroke (rather than returning to blank) while
History drops to 0 entries and RedoHistory holds 1; redo again shows the
stroke with History length 1 and RedoHistory length 0. -/
theorem claim4_amended (rectLeft rectTop : Int) (s : Int × Int)
    (pts : List (Int × Int)) :
    ((Whiteboard.init rectLeft rectTop).doStroke s pts).history.length = 1 ∧
    ((Whiteboard.init rectLeft rectTop).doStroke s pts).undo.canvas =
      ((Whiteboard.init rectLeft rectTop).doStroke s pts).canvas ∧
    ((Whiteboard.init rectLeft rectTop).doStroke s pts).undo.history.length
      = 0 ∧
    ((Whiteboard.init rectLeft rectTop).doStroke s pts).undo.redoHistory.length
      = 1 ∧
    ((Whiteboard.init rectLeft rectTop).doStroke s pts).undo.redo.canvas =
      ((Whiteboard.init rectLeft rectTop).doStroke s pts).canvas ∧
    ((Whiteboard.init rectLeft rectTop).doStroke s pts).undo.redo.history.length
      = 1 ∧
    ((Whiteboard.init rectLeft rectTop).doStroke s pts).undo.redo.redoHistory.length
      = 0 := by
  have h := Whiteboard.doStroke_history_eq (Whiteboard.init rectLeft rectTop)
    s pts (by simp [Whiteboard.init])
  set W := (Whiteboard.init rectLeft rectTop).doStroke s pts with hW
  have hh : W.history = [toDataURL W.canvas] := by
    simpa [Whiteboard.init] using h.1
  have hr : W.redoHistory = [] := h.2
  simp [Whiteboard.undo, Whiteboard.redo, hh, hr, Whiteboard.redrawFromData,
    toDataURL]

/-- C5: undo with an empty History changes nothing (canvas and both
stacks), and redo with an empty RedoHistory likewise changes nothing. -/
theorem claim5_empty_stack_noops (w : Whiteboard) :
    (w.history = [] → w.undo = w) ∧ (w.redoHistory = [] → w.redo = w) := by
  constructor <;> intro h
  · simp [Whiteboard.undo, h]
  · simp [Whiteboard.redo, h]

/-- Witness for C5 at the initial state, whose stacks are both empty. -/
theorem claim5_witness :
    (Whiteboard.init 0 0).undo = Whiteboard.init 0 0 ∧
    (Whiteboard.init 0 0).redo = Whiteboard.init 0 0 :=
  ⟨(claim5_empty_stack_noops (Whiteboard.init 0 0)).1 rfl,
   (claim5_empty_stack_noops (Whiteboard.init 0 0)).2 rfl⟩

end WhiteboardApp

namespace WhiteboardApp

/-- C6 counterexample: a mousedown with the text tool at `(5, 7)` leaves
`isDrawing = true` (the flag is raised before the tool check), so the
following mouseup commits a snapshot — History grows to 1 instead of
staying at 0. -/
theorem claim6_counterexample :
    (((Whiteboard.init 0 0).selectTool "text").startDrawing 5 7).isDrawing
      = true ∧
    ((((Whiteboard.init 0 0).selectTool "text").startDrawing 5 7).stopDrawing).history.length
      = 1 ∧
    ¬ ((((Whiteboard.init 0 0).selectTool "text").startDrawing 5 7).stopDrawing).history.length
      = 0 := by
  decide

/-- C6 amended: a mousedown with the text tool opens an overlay at the
event's canvas-relative coordinates, styled from the current stroke color
and width, and begins no stroke path — but it does mark
drawing-in-progress, so the subsequent mouseup commits a (spurious)
snapshot, growing History by one. -/
theorem claim6_amended (w : Whiteboard) (cx cy : Int)
    (h : w.currentTool = "text") :
    (w.startDrawing cx cy).textInput = some
      { left := cx - w.rectLeft, top := cy - w.rectTop,
        color := w.ctx.strokeStyle,
        font := toString (w.ctx.lineWidth * 5) ++ "px Arial",
        value := "" } ∧
    (w.startDrawing cx cy).path = w.path ∧
    (w.startDrawing cx cy).isDrawing = true ∧
    (w.startDrawing cx cy).stopDrawing.history.length =
      (w.startDrawing cx cy).history.length + 1 := by
  obtain ⟨rL, rT, cv, c, isD, tool, hist, rhist, ti, pth⟩ := w
  have h2 : tool = "text" := h
  subst h2
  cases ti with
  | none =>
    simp [Whiteboard.startDrawing, Whiteboard.addTextInput,
      Whiteboard.commitText, Whiteboard.stopDrawing, Whiteboard.saveState]
  | some t =>
    by_cases hv : t.value = "" <;>
      simp [Whiteboard.startDrawing, Whiteboard.addTextInput,
        Whiteboard.commitText, Whiteboard.stopDrawing, Whiteboard.saveState,
        hv]

/-- Witness for C6 at the initial state with the text tool selected. -/
theorem claim6_witness :
    (((Whiteboard.init 0 0).selectTool "text").startDrawing 8 9).textInput
      = some { left := 8, top := 9, color := "#000000", font := "5px Arial",
               value := "" } ∧
    (((Whiteboard.init 0 0).selectTool "text").startDrawing 8 9).path
      = ((Whiteboard.init 0 0).selectTool "text").path ∧
    (((Whiteboard.init 0 0).selectTool "text").startDrawing 8 9).isDrawing
      = true ∧
    ((((Whiteboard.init 0 0).selectTool "text").startDrawing 8 9).stopDrawing).history.length
      = (((Whiteboard.init 0 0).selectTool "text").startDrawing 8 9).history.length
        + 1 :=
  claim6_amended ((Whiteboard.init 0 0).selectTool "text") 8 9 rfl

end WhiteboardApp

namespace WhiteboardApp

/-- C7 counterexample: select color `#ff0000`, make one eraser stroke,
then one pencil stroke; the pencil stroke is painted with the background
color `#f0f0f0`, not the selected `#ff0000` — the eraser's color override
outlives the eraser stroke. -/
theorem claim7_counterexample :
    ((((((Whiteboard.init 0 0).setColor "#ff0000").selectTool
          "eraser").doStroke (0, 0) [(1, 0)]).selectTool
        "pencil").doStroke (2, 0) [(3, 0)]).canvas.map PaintOp.paintColor
      = ["#f0f0f0", "#f0f0f0"] ∧
    ¬ ("#f0f0f0" : String) = "#ff0000" := by
  decide

/-- C7 amended: an eraser stroke overwrites the context's stroke color
with the background color `#f0f0f0` and the override persists after the
stroke ends (it is only undone by the next color-picker change); a
following pencil stroke therefore also paints `#f0f0f0`, not the selected
color. -/
theorem claim7_amended (w : Whiteboard) (s p : Int × Int)
    (pts : List (Int × Int)) (cx cy a b : Int)
    (he : w.currentTool = "eraser") :
    (w.doStroke s (p :: pts)).ctx.strokeStyle = "#f0f0f0" ∧
    ((((w.doStroke s (p :: pts)).selectTool "pencil").startDrawing
          cx cy).draw a b).canvas.map PaintOp.paintColor =
      (((w.doStroke s (p :: pts)).selectTool "pencil").startDrawing
          cx cy).canvas.map PaintOp.paintColor ++ ["#f0f0f0"] := by
  have hnt : ¬ w.currentTool = "text" := by simp [he]
  have h1 : (w.doStroke s (p :: pts)).ctx.strokeStyle = "#f0f0f0" := by
    unfold Whiteboard.doStroke
    rw [Whiteboard.startDrawing_nonText w s.1 s.2 hnt,
      Whiteboard.stopDrawing_ctx]
    simp only [List.foldl_cons]
    exact Whiteboard.foldl_draw_strokeStyle pts _
      (Whiteboard.draw_strokeStyle_eraser_set _ p.1 p.2 (by simp)
        (by simp [he]))
  refine ⟨h1, ?_⟩
  rw [Whiteboard.startDrawing_nonText _ cx cy
    (by simp [Whiteboard.selectTool])]
  simp [Whiteboard.draw, Whiteboard.selectTool, PaintOp.paintColor, h1]

/-- Witness for C7: concrete eraser stroke then pencil drag from the
initial state with color `#ff0000` selected. -/
theorem claim7_witness :
    ((((Whiteboard.init 0 0).setColor "#ff0000").selectTool
        "eraser").doStroke (0, 0) [(1, 0)]).ctx.strokeStyle = "#f0f0f0" ∧
    (((((((Whiteboard.init 0 0).setColor "#ff0000").selectTool
            "eraser").doStroke (0, 0) [(1, 0)]).selectTool
          "pencil").startDrawing 2 0).draw 3 0).canvas.map PaintOp.paintColor =
      ((((((Whiteboard.init 0 0).setColor "#ff0000").selectTool
            "eraser").doStroke (0, 0) [(1, 0)]).selectTool
          "pencil").startDrawing 2 0).canvas.map PaintOp.paintColor
        ++ ["#f0f0f0"] :=
  claim7_amended (((Whiteboard.init 0 0).setColor "#ff0000").selectTool
    "eraser") (0, 0) (1, 0) [] 2 0 3 0 (by decide)

/-- C8: a text commit removes the overlay in every case; with non-empty
content it renders the text onto the raster at the overlay's position
(translated to canvas coordinates) and grows History by one; with empty
content it renders nothing and leaves History unchanged. -/
theorem claim8_commit_text (w : Whiteboard) (ti : TextInput)
    (h : w.textInput = some ti) :
    w.commitText.textInput = none ∧
    (ti.value = "" →
      w.commitText.canvas = w.canvas ∧ w.commitText.history = w.history) ∧
    (¬ ti.value = "" →
      w.commitText.canvas = w.canvas ++
        [PaintOp.text ti.value (ti.left - w.rectLeft) (ti.top - w.rectTop)
          ti.font ti.color] ∧
      w.commitText.history.length = w.history.length + 1) := by
  by_cases hv : ti.value = "" <;>
    simp [Whiteboard.commitText, h, hv, Whiteboard.saveState, toDataURL]

/-- Witness for C8 at the state whose overlay holds `Hi` at `(3, 4)`. -/
theorem claim8_witness :
    busyState.commitText.textInput = none ∧
    busyState.commitText.canvas = busyState.canvas ++
      [PaintOp.text "Hi" 3 4 "5px Arial" "#000000"] ∧
    busyState.commitText.history.length = busyState.history.length + 1 := by
  have h := claim8_commit_text busyState
    { left := 3, top := 4, color := "#000000", font := "5px Arial",
      value := "Hi" } (by decide)
  exact ⟨h.1, (h.2.2 (by decide)).1, (h.2.2 (by decide)).2⟩

/-- C9: a declined clear changes nothing at all; a confirmed clear wipes
every pixel and commits a snapshot, growing History by one. -/
theorem claim9_clear_canvas (w : Whiteboard) :
    w.clearCanvas false = w ∧
    (w.clearCanvas true).canvas = [] ∧
    (w.clearCanvas true).history.length = w.history.length + 1 := by
  simp [Whiteboard.clearCanvas, Whiteboard.saveState]

/-- C10: an undo that is not a no-op and a redo that is not a no-op each
preserve the combined size of the two stacks. -/
theorem claim10_undo_redo_sum (w : Whiteboard) :
    (¬ w.history = [] →
      w.undo.history.length + w.undo.redoHistory.length =
        w.history.length + w.redoHistory.length) ∧
    (¬ w.redoHistory = [] →
      w.redo.history.length + w.redo.redoHistory.length =
        w.history.length + w.redoHistory.length) := by
  constructor <;> intro h
  · match hh : w.history with
    | [] => exact absurd hh h
    | t :: r =>
      simp only [Whiteboard.undo, hh, Whiteboard.redrawFromData, toDataURL,
        List.length_cons]
      omega
  · match hh : w.redoHistory with
    | [] => exact absurd hh h
    | t :: r =>
      simp only [Whiteboard.redo, hh, Whiteboard.redrawFromData, toDataURL,
        List.length_cons]
      omega

/-- Witness for C10 at the two-strokes-then-undo state, where both stacks
are non-empty. -/
theorem claim10_witness :
    (midState.undo.history.length + midState.undo.redoHistory.length =
      midState.history.length + midState.redoHistory.length) ∧
    (midState.redo.history.length + midState.redo.redoHistory.length =
      midState.history.length + midState.redoHistory.length) :=
  ⟨(claim10_undo_redo_sum midState).1 (by decide),
   (claim10_undo_redo_sum midState).2 (by decide)⟩

end WhiteboardApp
